import Mathlib

/-!
Shallow embedding of the evolve station-discovery and reconciliation logic
(src/evolve_site/services.py and src/evolve_site/views.py), together with
theorems checking the specification's claims about it.

Modelling conventions:
* Python strings are Lean `String`s; Python's lexicographic `>=` on strings
  and `str.upper()` are re-implemented over `List Char` so that they reduce
  in the kernel (`pyStrGe`, `strUpper`).  `str.upper()` is modelled for the
  ASCII range, which covers every network-name needle the code matches.
* A JSON station object is the structure `Station`; absent optional keys are
  `none` (for `open_date`, which the code reads with default `''`, absence
  is the empty string).
* Database rows of the StationStatus model are `StationStatusRow`; the
  status store is a `List StationStatusRow` in table order, and unordered
  querysets / dict comprehensions iterate in that order.
* Machine effects (geocoding, HTTP) are inputs: the environment `FetchEnv`
  fixes the outcome of each external call, and `get_stations` returns the
  list of external calls it performed alongside its result.  Python
  exceptions are an explicit `Except` layer; the `except` clause of
  `get_stations` is the `Except.error` branch.
-/

/-- Uppercase of a string, ASCII-wise, as Python's upper() acts on the
ASCII needles matched by the code. -/
def strUpper (s : String) : String := ⟨s.data.map Char.toUpper⟩

/-- Lexicographic character-list strict order, matching Python string `<`. -/
def charListLt : List Char → List Char → Bool
  | [], [] => false
  | [], _ :: _ => true
  | _ :: _, [] => false
  | a :: as, b :: bs => if a < b then true else if b < a then false else charListLt as bs

/-- Python string comparison a >= b, i.e. not (a < b) lexicographically. -/
def pyStrGe (a b : String) : Bool := !(charListLt a.data b.data)

/-- Substring test: does the haystack contain the needle, as Python's
`needle in hay`. -/
def hasSub (needle : List Char) : List Char → Bool
  | [] => needle.isEmpty
  | c :: rest => needle.isPrefixOf (c :: rest) || hasSub needle rest

/-- Python `needle in hay` on strings. -/
def strContains (hay needle : String) : Bool := hasSub needle.data hay.data

/-- Truthiness of an optional rational, as Python applies to the explicit
power field: absent or zero is falsy. -/
def pyTruthyQ : Option ℚ → Bool
  | none => false
  | some p => if p = 0 then false else true

/-- Truthiness of an optional string (the API key): absent or empty is falsy. -/
def pyTruthyStr : Option String → Bool
  | none => false
  | some s => if s = "" then false else true

/-- External station identifier as found in the NREL JSON payload: either a
JSON number or a JSON string.  The views coerce it with Python str(). -/
inductive ExtId where
  | num (n : Int)
  | str (s : String)
deriving DecidableEq

/-- Python str() applied to the external identifier: a number becomes its
decimal string. -/
def ExtId.toStr : ExtId → String
  | ExtId.num n => toString n
  | ExtId.str s => s

/-- A station record from the NREL response, restricted to the fields the
code reads.  `max_power_kw` and `local_status` are the keys the code adds
(absent, i.e. `none`, on a fresh record). -/
structure Station where
  id : ExtId := ExtId.num 0
  station_name : String := ""
  ev_network : String := ""
  open_date : String := ""
  ev_dc_fast_charger_power : Option ℚ := none
  ev_dc_fast_num : Option Int := none
  max_power_kw : Option ℚ := none
  local_status : Option String := none
deriving DecidableEq

/-- A persisted row of the StationStatus model (models.py: nrel_station_id,
status, user nullable, updated_at auto timestamp, no uniqueness
constraint). -/
structure StationStatusRow where
  nrel_station_id : String
  status : String
  user : Option String
  updated_at : Nat
deriving DecidableEq

/-- Outcome of the Nominatim geocoding call inside geocode_zip: a location,
no location, or a geopy exception (GeocoderTimedOut / GeocoderServiceError). -/
inductive GeoOutcome where
  | found (lat lon : ℚ)
  | notFound
  | geoError
deriving DecidableEq

/-- Outcome of the requests.get call inside get_stations: a timeout, another
transport error (both are RequestException), or a response with a status
code and a body that either parses to a fuel_stations list or not. -/
inductive HttpOutcome where
  | timeout
  | transportError
  | response (status : Nat) (body : Option (List Station))
deriving DecidableEq

/-- Python exceptions the try of get_stations can see; both are caught by
its except clause. -/
inductive PyExn where
  | requestException
  | valueError
deriving DecidableEq

/-- The external world of one get_stations call: the configured credential
and the outcome of each external call, fixed up front. -/
structure FetchEnv where
  apiKey : Option String
  geo : GeoOutcome
  http : HttpOutcome

/-- External calls get_stations can perform, recorded in order. -/
inductive NetEffect where
  | geocodeCall
  | httpCall
deriving DecidableEq

namespace NRELClient

/-- Embedding of NRELClient.geocode_zip (services.py 12-26): location found
gives the pair, not-found and caught geopy errors give the None pair. -/
def geocode_zip : GeoOutcome → Option (ℚ × ℚ)
  | GeoOutcome.found lat lon => some (lat, lon)
  | GeoOutcome.notFound => none
  | GeoOutcome.geoError => none

/-- Network-name heuristic of NRELClient.extract_max_power (services.py
40-78): uppercase the network, then the first matching substring rule wins. -/
def extractNetworkPower (station : Station) : ℚ :=
  let network := strUpper station.ev_network
  if strContains network "TESLA" then
    let open_date := station.open_date
    if (!(open_date == "")) && pyStrGe open_date "2020-01-01" then 250
    else if (!(open_date == "")) && pyStrGe open_date "2012-01-01" then 150
    else 150
  else if strContains network "ELECTRIFY AMERICA" then 350
  else if strContains network "EVGO" then 350
  else if strContains network "CHARGEPOINT" then 62.5
  else if strContains network "FRANCIS" then 150
  else if strContains network "BLINK" then 50
  else 50

/-- Embedding of NRELClient.extract_max_power (services.py 28-78): a truthy
explicit ev_dc_fast_charger_power field is returned verbatim, otherwise the
network heuristic decides. -/
def extract_max_power (station : Station) : ℚ :=
  match station.ev_dc_fast_charger_power with
  | some p => if p = 0 then extractNetworkPower station else p
  | none => extractNetworkPower station

/-- Client-side filter and annotation loop of get_stations (services.py
123-137): keep stations whose ev_dc_fast_num (default 0) is positive and
set their max_power_kw key. -/
def processStations (stations : List Station) : List Station :=
  stations.filterMap fun station =>
    if 0 < station.ev_dc_fast_num.getD 0 then
      some { station with max_power_kw := some (extract_max_power station) }
    else none

/-- The HTTP request, raise_for_status, json() and filtering steps of
get_stations inside its try block; raise_for_status raises for 4xx/5xx
codes, json() raises ValueError on a non-parseable body. -/
def fetchStations (http : HttpOutcome) : Except PyExn (List Station)  :=
  match http with
  | HttpOutcome.timeout => Except.error PyExn.requestException
  | HttpOutcome.transportError => Except.error PyExn.requestException
  | HttpOutcome.response status body =>
    if 400 ≤ status ∧ status < 600 then Except.error PyExn.requestException
    else
      match body with
      | none => Except.error PyExn.valueError
      | some stations => Except.ok (processStations stations)

/-- Embedding of NRELClient.get_stations (services.py 80-144), returning its
result list together with the external calls performed.  The except clause
catching (RequestException, ValueError) is the Except.error branch. -/
def get_stations (env : FetchEnv) : List Station × List NetEffect :=
  if pyTruthyStr env.apiKey = false then ([], [])
  else
    match geocode_zip env.geo with
    | none => ([], [NetEffect.geocodeCall])
    | some _ =>
      match fetchStations env.http with
      | Except.ok stations => (stations, [NetEffect.geocodeCall, NetEffect.httpCall])
      | Except.error _ => ([], [NetEffect.geocodeCall, NetEffect.httpCall])

end NRELClient

/-- Rows of the status store whose station id equals the key, in table
order. -/
def groupRows (store : List StationStatusRow) (key : String) : List StationStatusRow :=
  store.filter fun r => r.nrel_station_id == key

/-- Maximum updated_at over the rows of one station id, as the Max
aggregation of views.py 242-247 computes for each queried id. -/
def stationMaxTs (store : List StationStatusRow) (key : String) : Nat :=
  ((groupRows store key).map fun r => r.updated_at).foldl Nat.max 0

/-- Rows whose station id is among the queried ids (the filter
nrel_station_id__in=station_ids). -/
def queriedRows (store : List StationStatusRow) (ids : List String) : List StationStatusRow :=
  store.filter fun r => ids.contains r.nrel_station_id

/-- The values of the latest_ids dict of views.py 248: one maximum
timestamp per distinct queried station id that has rows. -/
def latestValues (store : List StationStatusRow) (ids : List String) : List Nat :=
  (((queriedRows store ids).map fun r => r.nrel_station_id).dedup).map fun i =>
    stationMaxTs store i

/-- The status_records queryset of views.py 251-254: rows whose id is
queried and whose updated_at lies in latest_ids.values(). -/
def status_records (store : List StationStatusRow) (ids : List String) : List StationStatusRow :=
  store.filter fun r =>
    ids.contains r.nrel_station_id && (latestValues store ids).contains r.updated_at

/-- The status_map dict of views.py 255 looked up at one key: the last
status_records row with that id wins, as in a Python dict comprehension;
a missing key gives none (dict.get). -/
def attachedStatus (store : List StationStatusRow) (ids : List String) (key : String) : Option String :=
  (((status_records store ids).filter fun r => r.nrel_station_id == key).getLast?).map
    fun r => r.status

/-- The merge block of StationListView.get_context_data (views.py 237-259)
in state-passing form: the first component is the status store after the
merge, the second the augmented station list.  The store is only read. -/
def attach_local_status_st (store : List StationStatusRow) (stations : List Station) :
    List StationStatusRow × List Station :=
  if stations.isEmpty then (store, stations)
  else
    let ids := stations.map fun s => ExtId.toStr s.id
    (store, stations.map fun s =>
      { s with local_status := attachedStatus store ids (ExtId.toStr s.id) })

/-- The augmented station list produced by the merge block. -/
def attach_local_status (store : List StationStatusRow) (stations : List Station) : List Station :=
  (attach_local_status_st store stations).snd

/-- A status submission request: the authenticated user (none = anonymous)
and the two form fields of StationStatusForm. -/
structure SubmitRequest where
  user : Option String
  station_id : String
  status : String

/-- The STATUS_CHOICES of StationStatusForm / the StationStatus model. -/
def statusChoices : List String := ["Working", "Broken", "Busy"]

/-- Validation of StationStatusForm: station_id is a required CharField,
status a ChoiceField over the three values. -/
def stationStatusFormValid (req : SubmitRequest) : Bool :=
  (!(req.station_id == "")) && statusChoices.contains req.status

/-- Responses of SubmitStationStatusView: the success JSON with echoed
status, the 400 validation-error JSON, and the 403 JSON produced by
handle_no_permission for anonymous callers. -/
inductive SubmitResponse where
  | success (echoed : String)
  | validationFailure
  | authFailure
deriving DecidableEq

/-- HTTP status code carried by each SubmitStationStatusView response. -/
def submitHttpStatus : SubmitResponse → Nat
  | SubmitResponse.success _ => 200
  | SubmitResponse.validationFailure => 400
  | SubmitResponse.authFailure => 403

/-- Embedding of SubmitStationStatusView.post guarded by LoginRequiredMixin
(views.py 278-300): anonymous callers are turned away before the form runs;
a valid form appends one StationStatus row with the current timestamp. -/
def submit_station_status (store : List StationStatusRow) (now : Nat) (req : SubmitRequest) :
    List StationStatusRow × SubmitResponse :=
  match req.user with
  | none => (store, SubmitResponse.authFailure)
  | some _ =>
    if stationStatusFormValid req then
      (store ++ [⟨req.station_id, req.status, req.user, now⟩],
        SubmitResponse.success req.status)
    else (store, SubmitResponse.validationFailure)

/-- The store after n repetitions of the same submission. -/
def submitN (store : List StationStatusRow) (now : Nat) (req : SubmitRequest) : Nat → List StationStatusRow
  | 0 => store
  | n + 1 => (submit_station_status (submitN store now req n) now req).fst

/-- The page query parameter as the view sees it: absent, not parseable as
an int, or an integer. -/
inductive PageParam where
  | missing
  | malformed
  | num (n : Int)

/-- Django Paginator.num_pages for per_page = per with no orphans and
allow_empty_first_page: the ceiling of max 1 count divided by per. -/
def django_num_pages (count per : Nat) : Nat := (max 1 count + per - 1) / per

/-- Django Paginator.get_page via validate_number: a missing or malformed
number falls back to 1 (PageNotAnInteger), a number below 1 or beyond the
last page falls back to the last page (EmptyPage). -/
def get_page_number (count per : Nat) (p : PageParam) : Nat :=
  match p with
  | PageParam.missing => 1
  | PageParam.malformed => 1
  | PageParam.num n =>
    if n < 1 then django_num_pages count per
    else if (django_num_pages count per : Int) < n then django_num_pages count per
    else n.toNat

/-- The object list of one paginator page: the page-sized slice starting at
(page - 1) * per. -/
def page_items (l : List Station) (per page : Nat) : List Station :=
  (l.drop ((page - 1) * per)).take per

/-- Pagination of StationListView.get_context_data (views.py 261-270):
Paginator(stations, 10) followed by get_page on the raw page parameter. -/
def station_list_page (stations : List Station) (p : PageParam) : List Station :=
  page_items stations 10 (get_page_number stations.length 10 p)

/-- Case-insensitive substring matching against the network field, in the
words of the spec's matching rule. -/
def containsCI (hay needle : String) : Bool := strContains (strUpper hay) (strUpper needle)

/-- Network heuristic in the words of the claim: first case-insensitive
substring match in the fixed order decides, with the TESLA branch reading
250 when the open date is at least 2020-01-01 and 150 otherwise, including
an absent or pre-2012 date; no match gives 50. -/
def estimate_network_spec (record : Station) : ℚ :=
  if containsCI record.ev_network "TESLA" then
    (if pyStrGe record.open_date "2020-01-01" then 250 else 150)
  else if containsCI record.ev_network "ELECTRIFY AMERICA" then 350
  else if containsCI record.ev_network "EVGO" then 350
  else if containsCI record.ev_network "CHARGEPOINT" then 62.5
  else if containsCI record.ev_network "FRANCIS" then 150
  else if containsCI record.ev_network "BLINK" then 50
  else 50

/-- Power estimator in the words of the claim: an explicit, non-zero
DC-fast power field is returned verbatim, otherwise the network rules
decide. -/
def estimate_power_spec (record : Station) : ℚ :=
  match record.ev_dc_fast_charger_power with
  | some p => if p = 0 then estimate_network_spec record else p
  | none => estimate_network_spec record

/-- An environment with a missing credential. -/
def envNoKey : FetchEnv := ⟨none, GeoOutcome.notFound, HttpOutcome.timeout⟩

/-- An environment whose HTTP call times out after a successful geocode. -/
def envTimeout : FetchEnv := ⟨some "key", GeoOutcome.found 0 0, HttpOutcome.timeout⟩

/-- A station record advertising one DC-fast port on the EVgo network. -/
def stFast : Station := { ev_network := "EVGO", ev_dc_fast_num := some 1 }

/-- An environment answering the HTTP call with a non-2xx, non-error status
code and a parseable body listing one DC-fast station. -/
def env3xx : FetchEnv :=
  ⟨some "key", GeoOutcome.found 0 0, HttpOutcome.response 300 (some [stFast])⟩

/-- An environment answering with HTTP 200 and a parseable body. -/
def envOk : FetchEnv :=
  ⟨some "key", GeoOutcome.found 0 0, HttpOutcome.response 200 (some [stFast])⟩

/-- An anonymous status submission. -/
def reqAnon : SubmitRequest := ⟨none, "5", "Working"⟩

/-- A valid authenticated status submission. -/
def reqValid : SubmitRequest := ⟨some "alice", "42", "Working"⟩

/-- A station record with every field at its default. -/
def blankStation : Station := {}

/-- Stations A and B for the reconciliation counterexample. -/
def stA : Station := { id := ExtId.str "A" }

/-- Station B of the reconciliation counterexample. -/
def stB : Station := { id := ExtId.str "B" }

/-- A status store in which station A's stale row shares its timestamp with
station B's latest row. -/
def cexStore : List StationStatusRow :=
  [⟨"A", "Broken", none, 2⟩, ⟨"A", "Working", none, 1⟩, ⟨"B", "Busy", none, 1⟩]

/-- A station whose external identifier is the number 7. -/
def st7 : Station := { id := ExtId.num 7 }

/-- A one-row status store keyed by the decimal string of 7. -/
def storeW : List StationStatusRow := [⟨"7", "Working", some "u", 5⟩]

/-- Claim C4: for every location input, an absent (or falsy) API credential
makes the station-source client return an empty list immediately, with no
geocoding call and no network call performed. -/
theorem get_stations_requires_credential (env : FetchEnv)
    (h : pyTruthyStr env.apiKey = false) :
    NRELClient.get_stations env = ([], []) := by
  simp [NRELClient.get_stations, h]

/-- Witness for C4 at a concrete environment with no credential. -/
theorem get_stations_requires_credential_witness :
    NRELClient.get_stations envNoKey = ([], []) :=
  get_stations_requires_credential envNoKey (by decide)

/-- Claim C9: reconciliation performs no writes: the status store after the
merge step equals the store before it, for every input. -/
theorem attach_local_status_pure (store : List StationStatusRow) (stations : List Station) :
    (attach_local_status_st store stations).fst = store := by
  unfold attach_local_status_st
  split <;> rfl

/-- Claim C6: anonymous submissions get the authorization failure, which is
neither a success nor a validation failure; authenticated submissions with a
status outside the three choices get the validation failure; the two
rejections are distinguishable (403 vs 400). -/
theorem submit_status_rejections (store : List StationStatusRow) (now : Nat) (req : SubmitRequest) :
    (req.user = none →
      (submit_station_status store now req).snd = SubmitResponse.authFailure) ∧
    (∀ u, req.user = some u → statusChoices.contains req.status = false →
      (submit_station_status store now req).snd = SubmitResponse.validationFailure) ∧
    submitHttpStatus SubmitResponse.authFailure = 403 ∧
    submitHttpStatus SubmitResponse.validationFailure = 400 ∧
    (∀ e, submitHttpStatus (SubmitResponse.success e) = 200) ∧
    SubmitResponse.authFailure ≠ SubmitResponse.validationFailure ∧
    (∀ e, SubmitResponse.authFailure ≠ SubmitResponse.success e) ∧
    (∀ e, SubmitResponse.validationFailure ≠ SubmitResponse.success e) := by
  refine ⟨?_, ?_, rfl, rfl, fun e => rfl, by simp, fun e => by simp, fun e => by simp⟩
  · intro hu
    simp [submit_station_status, hu]
  · intro u hu hbad
    have hmem : req.status ∉ statusChoices := by simpa using hbad
    simp [submit_station_status, hu, stationStatusFormValid, hmem]

/-- Witness for C6 at a concrete anonymous request. -/
theorem submit_status_rejections_witness :
    (submit_station_status [] 0 reqAnon).snd = SubmitResponse.authFailure :=
  (submit_status_rejections [] 0 reqAnon).1 rfl

/-- Claim C7: a successful authenticated submission appends exactly one row
with that station id, status and user, touching no existing row, and n
identical valid submissions leave n new rows. -/
theorem submit_status_accumulates (store : List StationStatusRow) (now : Nat)
    (req : SubmitRequest) (u : String)
    (hu : req.user = some u) (hv : stationStatusFormValid req = true) :
    (submit_station_status store now req).fst
      = store ++ [⟨req.station_id, req.status, req.user, now⟩] ∧
    (submit_station_status store now req).snd = SubmitResponse.success req.status ∧
    ∀ n : Nat, (submitN store now req n).length = store.length + n := by
  have hstep : ∀ st : List StationStatusRow,
      (submit_station_status st now req).fst
        = st ++ [⟨req.station_id, req.status, req.user, now⟩] := by
    intro st
    simp [submit_station_status, hu, hv]
  refine ⟨hstep store, by simp [submit_station_status, hu, hv], ?_⟩
  intro n
  induction n with
  | zero => rfl
  | succ m ih =>
    show (submit_station_status (submitN store now req m) now req).fst.length = _
    rw [hstep (submitN store now req m)]
    simp [ih]
    omega

/-- Witness for C7: three identical valid submissions on an empty store
leave three rows. -/
theorem submit_status_accumulates_witness :
    (submitN [] 7 reqValid 3).length = ([] : List StationStatusRow).length + 3 :=
  (submit_status_accumulates [] 7 reqValid "alice" rfl (by decide)).2.2 3

/-- The number of pages reported by the paginator is at least one. -/
theorem django_num_pages_pos (count : Nat) : 1 ≤ django_num_pages count 10 := by
  have h1 : 1 ≤ max 1 count := le_max_left 1 count
  unfold django_num_pages
  omega

/-- Claim C8: pagination slices the station list into pages of ten; a
missing or non-integer page parameter falls back to page 1, a page number
beyond the last falls back to the last page, and every parameter yields a
page (no error). -/
theorem station_list_pagination_fallbacks (stations : List Station) (p : PageParam) :
    station_list_page stations p
      = (stations.drop ((get_page_number stations.length 10 p - 1) * 10)).take 10 ∧
    (station_list_page stations p).length ≤ 10 ∧
    get_page_number stations.length 10 PageParam.missing = 1 ∧
    get_page_number stations.length 10 PageParam.malformed = 1 ∧
    (∀ n : Int, (django_num_pages stations.length 10 : Int) < n →
      get_page_number stations.length 10 (PageParam.num n)
        = django_num_pages stations.length 10) := by
  refine ⟨rfl, ?_, rfl, rfl, ?_⟩
  · simp [station_list_page, page_items]
  · intro n hn
    have hpos := django_num_pages_pos stations.length
    simp only [get_page_number]
    rw [if_neg (by omega), if_pos hn]

/-- Witness for C8: page 99 of a 25-station list falls back to the last
page, page 3. -/
theorem station_list_pagination_fallbacks_witness :
    get_page_number (List.replicate 25 blankStation).length 10 (PageParam.num 99)
      = django_num_pages (List.replicate 25 blankStation).length 10 :=
  (station_list_pagination_fallbacks (List.replicate 25 blankStation)
    (PageParam.num 99)).2.2.2.2 99 (by decide)

/-- The code's network heuristic computes exactly the claim's rule list. -/
theorem extractNetworkPower_eq_spec (s : Station) :
    NRELClient.extractNetworkPower s = estimate_network_spec s := by
  have hT : strUpper "TESLA" = "TESLA" := by decide
  have hEA : strUpper "ELECTRIFY AMERICA" = "ELECTRIFY AMERICA" := by decide
  have hEV : strUpper "EVGO" = "EVGO" := by decide
  have hCP : strUpper "CHARGEPOINT" = "CHARGEPOINT" := by decide
  have hFR : strUpper "FRANCIS" = "FRANCIS" := by decide
  have hBL : strUpper "BLINK" = "BLINK" := by decide
  simp only [NRELClient.extractNetworkPower, estimate_network_spec, containsCI,
    hT, hEA, hEV, hCP, hFR, hBL]
  by_cases htes : strContains (strUpper s.ev_network) "TESLA" = true
  · simp only [htes, if_true]
    by_cases hemp : s.open_date = ""
    · have h20 : pyStrGe "" "2020-01-01" = false := by decide
      simp [hemp, h20]
    · have hne : (s.open_date == "") = false := beq_eq_false_iff_ne.mpr hemp
      cases h20 : pyStrGe s.open_date "2020-01-01" <;> simp [hne, h20]
  · simp [htes]

/-- The network heuristic only ever produces one of the five fixed values. -/
theorem extractNetworkPower_mem (s : Station) :
    NRELClient.extractNetworkPower s = 250 ∨ NRELClient.extractNetworkPower s = 150 ∨
    NRELClient.extractNetworkPower s = 350 ∨ NRELClient.extractNetworkPower s = 62.5 ∨
    NRELClient.extractNetworkPower s = 50 := by
  rw [extractNetworkPower_eq_spec]
  unfold estimate_network_spec
  split_ifs <;> simp

/-- Claim C2: the power estimator equals the spec's precedence rules on
every record, and always yields the explicit field's value or one of
250, 150, 350, 62.5, 50; determinism and totality are inherent in it being
a function. -/
theorem extract_max_power_follows_spec (station : Station) :
    NRELClient.extract_max_power station = estimate_power_spec station ∧
    (station.ev_dc_fast_charger_power = some (NRELClient.extract_max_power station) ∨
      NRELClient.extract_max_power station = 250 ∨
      NRELClient.extract_max_power station = 150 ∨
      NRELClient.extract_max_power station = 350 ∨
      NRELClient.extract_max_power station = 62.5 ∨
      NRELClient.extract_max_power station = 50) := by
  constructor
  · unfold NRELClient.extract_max_power estimate_power_spec
    cases hp : station.ev_dc_fast_charger_power with
    | none => exact extractNetworkPower_eq_spec station
    | some p =>
      by_cases h0 : p = 0
      · simp [h0, extractNetworkPower_eq_spec station]
      · simp [h0]
  · unfold NRELClient.extract_max_power
    cases hp : station.ev_dc_fast_charger_power with
    | none => exact Or.inr (extractNetworkPower_mem station)
    | some p =>
      by_cases h0 : p = 0
      · right
        simpa [h0] using extractNetworkPower_mem station
      · left
        simp [h0]

/-- Failure modes that make the try block of get_stations raise: a timeout,
another transport error, a 4xx/5xx status, or a non-parseable body. -/
theorem fetchStations_error_of_failure (http : HttpOutcome)
    (h : http = HttpOutcome.timeout ∨ http = HttpOutcome.transportError ∨
      (∃ st body, http = HttpOutcome.response st body ∧ 400 ≤ st ∧ st < 600) ∨
      (∃ st, http = HttpOutcome.response st none)) :
    ∃ e, NRELClient.fetchStations http = Except.error e := by
  rcases h with h | h | ⟨st, body, h, h4, h6⟩ | ⟨st, h⟩
  · exact ⟨PyExn.requestException, by rw [h]; rfl⟩
  · exact ⟨PyExn.requestException, by rw [h]; rfl⟩
  · refine ⟨PyExn.requestException, ?_⟩
    rw [h]
    simp only [NRELClient.fetchStations]
    rw [if_pos ⟨h4, h6⟩]
  · by_cases hrange : 400 ≤ st ∧ st < 600
    · refine ⟨PyExn.requestException, ?_⟩
      rw [h]
      simp only [NRELClient.fetchStations]
      rw [if_pos hrange]
    · refine ⟨PyExn.valueError, ?_⟩
      rw [h]
      simp only [NRELClient.fetchStations]
      rw [if_neg hrange]

/-- Claim C3 counterexample: an HTTP 300 response (non-2xx, but below the
4xx/5xx range raise_for_status checks) with a parseable body makes
get_stations return that body's surviving stations, not the empty list. -/
theorem get_stations_non2xx_counterexample :
    (NRELClient.get_stations env3xx).fst.length = 1 ∧
    (NRELClient.get_stations env3xx).fst ≠ [] ∧
    env3xx.http = HttpOutcome.response 300 (some [stFast]) ∧
    ¬ (200 ≤ 300 ∧ 300 ≤ 299) := by
  have hlen : (NRELClient.get_stations env3xx).fst.length = 1 := rfl
  refine ⟨hlen, ?_, rfl, by decide⟩
  intro hnil
  rw [hnil] at hlen
  exact absurd hlen (by decide)

/-- Claim C3, amended to the statuses raise_for_status really raises on:
for a geocoding failure, timeout, transport error, 4xx/5xx status, or
non-parseable body, get_stations returns the empty list, and the caught
exception layer shows no exception escapes. -/
theorem get_stations_absorbs_failures (env : FetchEnv)
    (h : NRELClient.geocode_zip env.geo = none ∨ env.http = HttpOutcome.timeout ∨
      env.http = HttpOutcome.transportError ∨
      (∃ st body, env.http = HttpOutcome.response st body ∧ 400 ≤ st ∧ st < 600) ∨
      (∃ st, env.http = HttpOutcome.response st none)) :
    (NRELClient.get_stations env).fst = [] := by
  by_cases hk : pyTruthyStr env.apiKey = false
  · simp [NRELClient.get_stations, hk]
  · cases hg : NRELClient.geocode_zip env.geo with
    | none => simp [NRELClient.get_stations, hk, hg]
    | some pr =>
      rcases h with hgeo | hfail
      · rw [hg] at hgeo
        cases hgeo
      · obtain ⟨e, he⟩ := fetchStations_error_of_failure env.http hfail
        simp [NRELClient.get_stations, hk, hg, he]

/-- Witness for the amended C3 at a concrete timed-out environment. -/
theorem get_stations_absorbs_failures_witness :
    (NRELClient.get_stations envTimeout).fst = [] :=
  get_stations_absorbs_failures envTimeout (Or.inr (Or.inl rfl))

/-- Annotating max_power_kw does not change what the estimator reads. -/
theorem extract_max_power_annot (s : Station) (x : Option ℚ) :
    NRELClient.extract_max_power { s with max_power_kw := x }
      = NRELClient.extract_max_power s := rfl

/-- Claim C5: on a successful response, the returned records are exactly
the stations with a positive DC-fast port count, each annotated with the
estimator's value; every returned record has count > 0 and carries that
annotation. -/
theorem get_stations_success_filter (env : FetchEnv) (st : Nat) (stations : List Station)
    (hk : pyTruthyStr env.apiKey = true)
    (hg : NRELClient.geocode_zip env.geo ≠ none)
    (hh : env.http = HttpOutcome.response st (some stations))
    (hst : st < 400) :
    (NRELClient.get_stations env).fst = NRELClient.processStations stations ∧
    NRELClient.processStations stations = stations.filterMap (fun s =>
      if 0 < s.ev_dc_fast_num.getD 0 then
        some { s with max_power_kw := some (NRELClient.extract_max_power s) }
      else none) ∧
    ∀ s' ∈ (NRELClient.get_stations env).fst,
      0 < s'.ev_dc_fast_num.getD 0 ∧
      s'.max_power_kw = some (NRELClient.extract_max_power s') := by
  have hfetch : NRELClient.fetchStations env.http
      = Except.ok (NRELClient.processStations stations) := by
    rw [hh]
    simp only [NRELClient.fetchStations]
    rw [if_neg (by omega)]
  have hfst : (NRELClient.get_stations env).fst = NRELClient.processStations stations := by
    cases hgv : NRELClient.geocode_zip env.geo with
    | none => exact absurd hgv hg
    | some pr => simp [NRELClient.get_stations, hk, hgv, hfetch]
  refine ⟨hfst, rfl, ?_⟩
  intro s' hs'
  rw [hfst] at hs'
  unfold NRELClient.processStations at hs'
  rcases List.mem_filterMap.mp hs' with ⟨a, ha, hsome⟩
  by_cases hpos : 0 < a.ev_dc_fast_num.getD 0
  · rw [if_pos hpos] at hsome
    cases hsome
    exact ⟨hpos, rfl⟩
  · rw [if_neg hpos] at hsome
    cases hsome

/-- Witness for C5 at a concrete 200 response holding one DC-fast station. -/
theorem get_stations_success_filter_witness :
    (NRELClient.get_stations envOk).fst = NRELClient.processStations [stFast] :=
  (get_stations_success_filter envOk 200 [stFast] (by decide) (by decide) rfl
    (by decide)).1

/-- Folding Nat.max over a list either lands in the list or keeps the seed. -/
theorem foldl_max_mem (l : List Nat) (a : Nat) :
    l.foldl Nat.max a ∈ l ∨ l.foldl Nat.max a = a := by
  induction l generalizing a with
  | nil => right; rfl
  | cons x t ih =>
    rcases ih (Nat.max a x) with h | h
    · left; exact List.mem_cons_of_mem _ h
    · rcases Nat.le_total a x with h2 | h2
      · left
        rw [List.foldl_cons, h]
        have : Nat.max a x = x := by
          show max a x = x
          exact max_eq_right h2
        rw [this]
        exact List.mem_cons_self _ _
      · right
        rw [List.foldl_cons, h]
        show max a x = a
        exact max_eq_left h2

/-- Folding Nat.max with seed zero over a nonempty list lands in the list. -/
theorem foldl_max_zero_mem (l : List Nat) (h : l ≠ []) : l.foldl Nat.max 0 ∈ l := by
  cases l with
  | nil => exact absurd rfl h
  | cons x t =>
    have hz : Nat.max 0 x = x := by
      show max 0 x = x
      exact max_eq_right (Nat.zero_le x)
    rcases foldl_max_mem t x with h1 | h1
    · rw [List.foldl_cons, hz]
      exact List.mem_cons_of_mem _ h1
    · rw [List.foldl_cons, hz, h1]
      exact List.mem_cons_self _ _

/-- A filter over a duplicate-free list collapses to a singleton when
exactly one member satisfies the predicate. -/
theorem filter_eq_singleton {α : Type} (l : List α) (p : α → Bool) (a : α)
    (ha : a ∈ l) (hpa : p a = true) (huniq : ∀ b ∈ l, p b = true → b = a)
    (hnd : l.Nodup) : l.filter p = [a] := by
  induction l with
  | nil => cases ha
  | cons x t ih =>
    rcases List.mem_cons.mp ha with rfl | hat
    · rw [List.filter_cons_of_pos hpa]
      have : t.filter p = [] := by
        rw [List.filter_eq_nil_iff]
        intro b hb hpb
        exact absurd (huniq b (List.mem_cons_of_mem _ hb) hpb ▸ hb) (List.nodup_cons.mp hnd).1
      rw [this]
    · have hx : p x = false := by
        by_contra hpx
        have := huniq x (List.mem_cons_self _ _) (by simpa using hpx)
        exact (List.nodup_cons.mp hnd).1 (this ▸ hat)
      rw [List.filter_cons_of_neg (by simp [hx])]
      exact ih hat (fun b hb hpb => huniq b (List.mem_cons_of_mem _ hb) hpb)
        (List.nodup_cons.mp hnd).2

/-- The per-station maximum timestamp is attained by a row of that station
whenever the station has rows. -/
theorem stationMaxTs_attained (store : List StationStatusRow) (key : String)
    (h : groupRows store key ≠ []) :
    ∃ w ∈ groupRows store key, w.updated_at = stationMaxTs store key := by
  have hne : ((groupRows store key).map fun r => r.updated_at) ≠ [] := by
    simpa using h
  have hmem : ((groupRows store key).map fun r => r.updated_at).foldl Nat.max 0
      ∈ (groupRows store key).map fun r => r.updated_at :=
    foldl_max_zero_mem _ hne
  rcases List.mem_map.mp hmem with ⟨w, hw, hwts⟩
  exact ⟨w, hw, hwts⟩

/-- A station id with no rows at all is absent from the status map. -/
theorem attachedStatus_none (store : List StationStatusRow) (ids : List String) (key : String)
    (hnone : store.filter (fun r => r.nrel_station_id == key) = []) :
    attachedStatus store ids key = none := by
  have hempty : ((status_records store ids).filter fun r => r.nrel_station_id == key) = [] := by
    rw [List.eq_nil_iff_forall_not_mem]
    intro q hq
    have hq1 : q ∈ status_records store ids := List.mem_of_mem_filter hq
    have hq2 := List.of_mem_filter hq
    have hqs : q ∈ store := List.mem_of_mem_filter hq1
    have : q ∈ store.filter (fun r => r.nrel_station_id == key) :=
      List.mem_filter.mpr ⟨hqs, hq2⟩
    rw [hnone] at this
    cases this
  unfold attachedStatus
  rw [hempty]
  rfl

/-- When all store timestamps are pairwise distinct, the status map sends a
queried id to the status of its maximum-timestamp row. -/
theorem attachedStatus_latest (store : List StationStatusRow) (ids : List String) (key : String)
    (hts : (store.map fun r => r.updated_at).Nodup) (hkey : key ∈ ids)
    (r : StationStatusRow) (hr : r ∈ store) (hid : r.nrel_station_id = key)
    (hmax : r.updated_at = stationMaxTs store key) :
    attachedStatus store ids key = some r.status := by
  have hnd : store.Nodup := hts.of_map _
  have inj := List.inj_on_of_nodup_map hts
  have hcontains : ids.contains key = true := by simpa using hkey
  have hrq : r ∈ queriedRows store ids := by
    refine List.mem_filter.mpr ⟨hr, ?_⟩
    rw [hid]
    exact hcontains
  have hkey_mem : key ∈ (queriedRows store ids).map fun q => q.nrel_station_id := by
    rw [← hid]
    exact List.mem_map_of_mem _ hrq
  have hmax_mem : stationMaxTs store key ∈ latestValues store ids := by
    unfold latestValues
    exact List.mem_map_of_mem _ (List.mem_dedup.mpr hkey_mem)
  have hlat : (latestValues store ids).contains r.updated_at = true := by
    rw [hmax]
    simpa using hmax_mem
  have huniq : ∀ q ∈ store,
      ((q.nrel_station_id == key) &&
        (ids.contains q.nrel_station_id && (latestValues store ids).contains q.updated_at))
          = true → q = r := by
    intro q hq hPq
    rw [Bool.and_eq_true, Bool.and_eq_true] at hPq
    obtain ⟨hq3, hq1, hq2⟩ := hPq
    have hqkey : q.nrel_station_id = key := by simpa using hq3
    have hq2m : q.updated_at ∈ latestValues store ids := by simpa using hq2
    unfold latestValues at hq2m
    rcases List.mem_map.mp hq2m with ⟨i, hi, hits⟩
    have hi2 : i ∈ (queriedRows store ids).map fun w => w.nrel_station_id :=
      List.mem_dedup.mp hi
    rcases List.mem_map.mp hi2 with ⟨w0, hw0, hw0id⟩
    have hw0g : w0 ∈ groupRows store i := by
      refine List.mem_filter.mpr ⟨List.mem_of_mem_filter hw0, ?_⟩
      simp [hw0id]
    have hgne : groupRows store i ≠ [] := by
      intro hc
      rw [hc] at hw0g
      cases hw0g
    obtain ⟨w, hwg, hwts⟩ := stationMaxTs_attained store i hgne
    have hws : w ∈ store := List.mem_of_mem_filter hwg
    have hwid : w.nrel_station_id = i := by
      have := List.of_mem_filter hwg
      simpa using this
    have hqw : q = w := inj hq hws (by rw [hwts, hits])
    have hikey : i = key := by rw [← hwid, ← hqw, hqkey]
    have hqr_ts : q.updated_at = r.updated_at := by
      rw [hqw, hwts, hikey, ← hmax]
    exact inj hq hr hqr_ts
  have hsingle : ((status_records store ids).filter fun q => q.nrel_station_id == key) = [r] := by
    unfold status_records
    rw [List.filter_filter]
    refine filter_eq_singleton store _ r hr ?_ huniq hnd
    rw [Bool.and_eq_true, Bool.and_eq_true]
    refine ⟨by simp [hid], ?_, hlat⟩
    rw [hid]
    exact hcontains
  unfold attachedStatus
  rw [hsingle]
  rfl

/-- A station of the input list appears in the reconciled output carrying
the status map's answer for its coerced identifier. -/
theorem attach_mem_map (store : List StationStatusRow) (stations : List Station) (s : Station)
    (hs : s ∈ stations) :
    { s with local_status := (attachedStatus store
        (stations.map (fun t => ExtId.toStr t.id)) (ExtId.toStr s.id)) }
      ∈ attach_local_status store stations := by
  have hne : stations.isEmpty = false := by
    cases stations with
    | nil => cases hs
    | cons a t => rfl
  unfold attach_local_status attach_local_status_st
  simp only [hne, Bool.false_eq_true, if_false]
  exact List.mem_map_of_mem _ hs

/-- Claim C1 counterexample: station A's rows have timestamps 2 (Broken)
and 1 (Working), and station B's single row has timestamp 1; because the
code fetches every queried row whose timestamp equals any queried id's
maximum and lets the last fetched row win, A is attached Working, not the
status Broken of its maximum-timestamp row. -/
theorem attach_latest_counterexample :
    stationMaxTs cexStore "A" = 2 ∧
    ((cexStore.filter fun r => r.nrel_station_id == "A" && r.updated_at == 2).map
      fun r => r.status) = ["Broken"] ∧
    (attach_local_status cexStore [stA, stB]).map (fun s => s.local_status)
      = [some "Working", some "Busy"] ∧
    some "Working" ≠ some "Broken" := by
  exact ⟨rfl, rfl, rfl, by decide⟩

/-- Claim C1, amended: provided all rows of the status store carry pairwise
distinct timestamps, reconciliation attaches to each input station with at
least one status row exactly the status of that identifier's
maximum-timestamp row, and attaches none to a station with zero rows. -/
theorem attach_local_status_latest (store : List StationStatusRow) (stations : List Station)
    (hts : (store.map fun r => r.updated_at).Nodup)
    (s : Station) (hs : s ∈ stations) :
    { s with local_status := (attachedStatus store
        (stations.map (fun t => ExtId.toStr t.id)) (ExtId.toStr s.id)) }
      ∈ attach_local_status store stations ∧
    ((store.filter fun r => r.nrel_station_id == ExtId.toStr s.id) = [] →
      attachedStatus store (stations.map (fun t => ExtId.toStr t.id)) (ExtId.toStr s.id)
        = none) ∧
    (∀ r ∈ store, r.nrel_station_id = ExtId.toStr s.id →
      r.updated_at = stationMaxTs store (ExtId.toStr s.id) →
      attachedStatus store (stations.map (fun t => ExtId.toStr t.id)) (ExtId.toStr s.id)
        = some r.status) := by
  refine ⟨attach_mem_map store stations s hs, ?_, ?_⟩
  · intro hnone
    exact attachedStatus_none store _ _ hnone
  · intro r hr hid hmax
    exact attachedStatus_latest store _ _ hts (List.mem_map_of_mem _ hs) r hr hid hmax

/-- Witness for the amended C1: a one-row store and the station with that
row's id get exactly that row's status attached. -/
theorem attach_local_status_latest_witness :
    attachedStatus storeW ([st7].map (fun t => ExtId.toStr t.id)) (ExtId.toStr st7.id)
      = some "Working" :=
  (attach_local_status_latest storeW [st7] (by decide) st7 (List.mem_singleton.mpr rfl)).2.2
    ⟨"7", "Working", some "u", 5⟩ (List.mem_singleton.mpr rfl) (by decide) (by decide)

/-- Claim C10: the reconciliation coerces a numeric external identifier to
its decimal string on both sides: that string is what is queried, and the
station's attached status is the status map's answer at that string. -/
theorem attach_numeric_id_coercion (store : List StationStatusRow) (stations : List Station)
    (s : Station) (n : Int) (hs : s ∈ stations) (hid : s.id = ExtId.num n) :
    ExtId.toStr s.id = toString n ∧
    (stations.map (fun t => ExtId.toStr t.id)).contains (toString n) = true ∧
    { s with local_status := (attachedStatus store
        (stations.map (fun t => ExtId.toStr t.id)) (toString n)) }
      ∈ attach_local_status store stations := by
  have h1 : ExtId.toStr s.id = toString n := by
    rw [hid]
    rfl
  refine ⟨h1, ?_, ?_⟩
  · have hmem : ExtId.toStr s.id ∈ stations.map (fun t => ExtId.toStr t.id) :=
      List.mem_map_of_mem _ hs
    rw [h1] at hmem
    simpa using hmem
  · have hmem := attach_mem_map store stations s hs
    rw [h1] at hmem
    exact hmem

/-- Witness for C10: the station with numeric id 7 is matched against the
store row keyed by the string of 7. -/
theorem attach_numeric_id_coercion_witness :
    { st7 with local_status := (attachedStatus storeW
        ([st7].map (fun t => ExtId.toStr t.id)) (toString (7 : Int))) }
      ∈ attach_local_status storeW [st7] :=
  (attach_numeric_id_coercion storeW [st7] st7 7 (List.mem_singleton.mpr rfl) rfl).2.2
